import Mathlib

/-!
Verification development for the PrivAI ASR request-processing pipeline.

The Python sources under `app/` are shallowly embedded:
* strings are `List Char`; Python `str.strip` / `str.split` become `pyStrip` / `pySplit`;
* `app/wer_calculator.py` (`compute_wer` and its normalization pipeline) becomes a
  total Lean function returning a `WerResult`;
* `app/audio_io.py` (`save_upload_to_tmp`, `prepare_audio_for_model`) becomes a
  trace-producing function over an environment that fixes the behaviour of the
  external ffmpeg/ffprobe capabilities;
* the two audio endpoints of `app/main.py` become functions producing a response
  outcome together with an event trace recording semaphore acquisition/release,
  normalization, inference and temp-file removal.
-/

namespace PrivAI

/-! ## Python string primitives -/

/-- Whitespace characters recognized by Python's `str.strip` / `str.split`
(ASCII subset: space, tab, newline, carriage return, vertical tab, form feed). -/
def isWS (c : Char) : Bool :=
  c = ' ' || c = '\t' || c = '\n' || c = '\r' || c = '\x0b' || c = '\x0c'

/-- Python `s.strip()`: drop leading and trailing whitespace. -/
def pyStrip (s : List Char) : List Char :=
  ((s.dropWhile isWS).reverse.dropWhile isWS).reverse

/-- Helper for `pySplit`: accumulates the current (reversed) word. -/
def splitWSAux : List Char → List Char → List (List Char)
  | [], acc => if acc.isEmpty then [] else [acc.reverse]
  | c :: cs, acc =>
    if isWS c then
      if acc.isEmpty then splitWSAux cs [] else acc.reverse :: splitWSAux cs []
    else splitWSAux cs (c :: acc)

/-- Python `s.split()` with no argument: split on whitespace runs, dropping
empty fragments. -/
def pySplit (s : List Char) : List (List Char) := splitWSAux s []

/-! ## Text normalization pipeline (`_DEFAULT_TRANSFORM` in `app/wer_calculator.py`) -/

/-- Python `str.lower`, character by character. -/
def toLowerCase (s : List Char) : List Char := s.map Char.toLower

/-- ASCII punctuation characters (Python `string.punctuation`). -/
def punctChars : List Char :=
  ['!', '"', '#', '$', '%', '&', '\x27', '(', ')', '*', '+', ',', '-', '.', '/',
   ':', ';', '<', '=', '>', '?', '@', '[', '\\', ']', '^', '_', '\x60',
   '\x7b', '|', '\x7d', '~']

def isPunct (c : Char) : Bool := punctChars.contains c

/-- Modelled from the spec: the jiwer `RemovePunctuation` transform
("strip punctuation"); jiwer is an external library whose source is not in
this repository. Deletes punctuation characters, keeping everything else. -/
def removePunctuation (s : List Char) : List Char := s.filter (fun c => !isPunct c)

/-- Helper for `removeMultipleSpaces`: the flag records whether the previous
character was whitespace (so a run of whitespace yields a single space). -/
def collapseAux : Bool → List Char → List Char
  | _, [] => []
  | prevWS, c :: cs =>
    if isWS c then
      if prevWS then collapseAux true cs else ' ' :: collapseAux true cs
    else c :: collapseAux false cs

/-- Modelled from the spec: the jiwer `RemoveMultipleSpaces` transform
("collapse runs of whitespace to one space"). -/
def removeMultipleSpaces (s : List Char) : List Char := collapseAux false s

/-- Modelled from the spec: `_DEFAULT_TRANSFORM = Compose([ToLowerCase(),
RemovePunctuation(), RemoveMultipleSpaces(), Strip()])` — "lowercase, strip
punctuation, collapse runs of whitespace to one space, trim leading/trailing
whitespace", applied in that order. -/
def DEFAULT_TRANSFORM (s : List Char) : List Char :=
  pyStrip (removeMultipleSpaces (removePunctuation (toLowerCase s)))

/-! ## Word-level alignment (`jiwer.process_words`) -/

/-- Alignment operation counts produced by the word-level edit-distance
alignment. -/
structure AlignCounts where
  hits : Nat
  substitutions : Nat
  deletions : Nat
  insertions : Nat
deriving DecidableEq, Repr

/-- Total edit cost of an alignment (substitutions, deletions and insertions
at unit cost; hits are free). -/
def editCost (a : AlignCounts) : Nat := a.substitutions + a.deletions + a.insertions

/-- Fuel-indexed word-level minimum-edit-distance alignment.  The fuel is a
structural-recursion artifact only: every recursive call shrinks
`ref.length + hyp.length`, so any fuel of at least that sum gives the
fuel-free recursion (`alignFuel_fuel_irrel`); the fuel-exhausted branch is
unreachable then. -/
def alignFuel : Nat → List (List Char) → List (List Char) → AlignCounts
  | _, [], hyp => ⟨0, 0, 0, hyp.length⟩
  | 0, _ :: _, _ => ⟨0, 0, 0, 0⟩
  | f + 1, _ :: rs, [] =>
    let a := alignFuel f rs []
    ⟨a.hits, a.substitutions, a.deletions + 1, a.insertions⟩
  | f + 1, r :: rs, h :: hs =>
    if r = h then
      let a := alignFuel f rs hs
      ⟨a.hits + 1, a.substitutions, a.deletions, a.insertions⟩
    else
      let s := alignFuel f rs hs
      let d := alignFuel f rs (h :: hs)
      let i := alignFuel f (r :: rs) hs
      if editCost s ≤ editCost d ∧ editCost s ≤ editCost i then
        ⟨s.hits, s.substitutions + 1, s.deletions, s.insertions⟩
      else if editCost d ≤ editCost i then
        ⟨d.hits, d.substitutions, d.deletions + 1, d.insertions⟩
      else
        ⟨i.hits, i.substitutions, i.deletions, i.insertions + 1⟩

/-- Modelled from the spec: `jiwer.process_words` (external library, source not
in this repository) — "compute the minimum-edit-distance alignment between the
two word sequences using substitution/insertion/deletion operations, each at
unit cost (classic Levenshtein over words)", deriving hits, substitutions,
deletions and insertions from the optimal alignment. -/
def process_words (ref hyp : List (List Char)) : AlignCounts :=
  alignFuel (ref.length + hyp.length) ref hyp

/-! ## `compute_wer` (`app/wer_calculator.py`) -/

/-- The dictionary returned by `compute_wer`. The Python float `wer` is
modelled as `Option ℚ` (`none` = Python `None`). -/
structure WerResult where
  wer : Option ℚ
  hits : Nat
  substitutions : Nat
  deletions : Nat
  insertions : Nat
  reference_length : Nat
  error : Option String
deriving DecidableEq, Repr

/-- `compute_wer` from `app/wer_calculator.py`, branch for branch.  The Lean
embedding is total, so the trailing Python `except Exception` branch (which
would return `wer = None` with only an error message) is unreachable and not
modelled. -/
def compute_wer (hypothesis reference : List Char) : WerResult :=
  if (pyStrip reference).isEmpty then
    ⟨none, 0, 0, 0, 0, 0, some "Reference text is empty"⟩
  else if (pyStrip hypothesis).isEmpty then
    let ref_words := (pySplit (pyStrip reference)).length
    ⟨some 1, 0, 0, ref_words, 0, ref_words, none⟩
  else
    let ref_proc := DEFAULT_TRANSFORM reference
    let hyp_proc := DEFAULT_TRANSFORM hypothesis
    if (pyStrip ref_proc).isEmpty then
      ⟨none, 0, 0, 0, 0, 0, some "Reference text is empty after normalization"⟩
    else if (pyStrip hyp_proc).isEmpty then
      let ref_words := (pySplit ref_proc).length
      ⟨some 1, 0, 0, ref_words, 0, ref_words, none⟩
    else
      let out := process_words (pySplit ref_proc) (pySplit hyp_proc)
      let ref_len := out.hits + out.substitutions + out.deletions
      if ref_len = 0 then
        ⟨none, 0, 0, 0, out.insertions, 0, some "Reference length computed as zero"⟩
      else
        ⟨some ((out.substitutions + out.deletions + out.insertions : ℚ) / ref_len),
          out.hits, out.substitutions, out.deletions, out.insertions, ref_len, none⟩

/-! ## Upload ingestion (`_iter` in `app/main.py`)

Chunks are modelled by their byte sizes; a `0` chunk is the empty read that
ends the stream (`if not chunk: break`). -/

/-- The `_iter` generator of both audio endpoints in `app/main.py`, fused with
the consumer loop of `save_upload_to_tmp` (which writes every yielded chunk):
returns the number of bytes written to the raw temp file, and whether the
iteration finished without raising the 413 `HTTPException`.  The generator
adds each chunk to `read_bytes` first and raises before yielding when the
total exceeds `maxBytes`, so the crossing chunk is never written. -/
def iterChunks (chunks : List Nat) (readBytes maxBytes : Nat) : Nat × Bool :=
  match chunks with
  | [] => (0, true)
  | c :: cs =>
    if c = 0 then (0, true)
    else if readBytes + c > maxBytes then (0, false)
    else
      let r := iterChunks cs (readBytes + c) maxBytes
      (c + r.1, r.2)

/-- Result of `save_upload_to_tmp` (`app/audio_io.py`): `tempfile.mkstemp` has
already created the raw temp file when the write loop starts, so on a
mid-stream failure (`ok = false`) the partial file exists; the exception
propagates before the function returns the path, and `save_upload_to_tmp`
itself deletes nothing. -/
structure SaveResult where
  bytesWritten : Nat
  ok : Bool
deriving DecidableEq, Repr

/-- `save_upload_to_tmp` from `app/audio_io.py`, applied to the `_iter`
generator of `app/main.py`. -/
def save_upload_to_tmp (chunks : List Nat) (maxBytes : Nat) : SaveResult :=
  let r := iterChunks chunks 0 maxBytes
  ⟨r.1, r.2⟩

/-! ## Audio normalization (`prepare_audio_for_model` in `app/audio_io.py`) -/

/-- Behaviour of the request's upload stream and of the external
ffprobe/ffmpeg capabilities for one request. -/
structure AudioEnv where
  chunks : List Nat
  decodable : Bool
  probeOk : Bool
  duration : ℚ
  transcodeOk : Bool
deriving DecidableEq, Repr

/-- Failures of `prepare_audio_for_model`, in source order: the 413
`HTTPException` raised by `_iter`, the `ensure_decodable` subprocess error,
the `ValueError` from `probe_duration`, the too-long `ValueError`, and the
`to_wav16k_mono` subprocess error. -/
inductive PrepError
  | uploadTooLarge
  | unreadableAudio
  | probeFailed
  | audioTooLong
  | transcodeFailed
deriving DecidableEq, Repr

/-- Outcome of `prepare_audio_for_model`: the probed duration on success
(the tuple's second component; the wav path is not modelled), or the raised
error. -/
inductive PrepOutcome
  | ok (duration : ℚ)
  | error (e : PrepError)
deriving DecidableEq, Repr

/-- Observable trace of one `prepare_audio_for_model` call: which temp files
were created/deleted, how many raw bytes were written, whether the external
codec (`to_wav16k_mono`) was invoked, and the outcome (`.ok duration` or a
`PrepError`).  `canonicalDeleted` records deletion *by this function* (the
caller in `app/main.py` deletes the wav separately, after inference). -/
structure PrepTrace where
  rawCreated : Bool
  rawBytes : Nat
  rawDeleted : Bool
  transcodeCalled : Bool
  canonicalCreated : Bool
  canonicalDeleted : Bool
  result : PrepOutcome
deriving DecidableEq, Repr

/-- `prepare_audio_for_model` from `app/audio_io.py`, branch for branch.
`raw_path = save_upload_to_tmp(...)` sits *before* the `try`, so its
`finally: os.remove(raw_path)` runs only when `save_upload_to_tmp` returned;
`tempfile.mkstemp(suffix=".wav")` creates the canonical file before
`to_wav16k_mono` runs, and no branch of the function deletes it. -/
def prepare_audio_for_model (env : AudioEnv) (maxBytes : Nat) (maxDurationSec : ℚ) :
    PrepTrace :=
  let saved := save_upload_to_tmp env.chunks maxBytes
  if !saved.ok then
    { rawCreated := true, rawBytes := saved.bytesWritten, rawDeleted := false,
      transcodeCalled := false, canonicalCreated := false, canonicalDeleted := false,
      result := .error .uploadTooLarge }
  else if !env.decodable then
    { rawCreated := true, rawBytes := saved.bytesWritten, rawDeleted := true,
      transcodeCalled := false, canonicalCreated := false, canonicalDeleted := false,
      result := .error .unreadableAudio }
  else if !env.probeOk then
    { rawCreated := true, rawBytes := saved.bytesWritten, rawDeleted := true,
      transcodeCalled := false, canonicalCreated := false, canonicalDeleted := false,
      result := .error .probeFailed }
  else if env.duration > maxDurationSec then
    { rawCreated := true, rawBytes := saved.bytesWritten, rawDeleted := true,
      transcodeCalled := false, canonicalCreated := false, canonicalDeleted := false,
      result := .error .audioTooLong }
  else if !env.transcodeOk then
    { rawCreated := true, rawBytes := saved.bytesWritten, rawDeleted := true,
      transcodeCalled := true, canonicalCreated := true, canonicalDeleted := false,
      result := .error .transcodeFailed }
  else
    { rawCreated := true, rawBytes := saved.bytesWritten, rawDeleted := true,
      transcodeCalled := true, canonicalCreated := true, canonicalDeleted := false,
      result := .ok env.duration }

/-! ## The audio endpoints (`app/main.py`) -/

/-- Per-request configuration of `app/main.py` (read once from the
environment at startup): `MAX_BYTES`, `MAX_DURATION_SEC`, `ALLOWED_MIME`. -/
structure Config where
  maxBytes : Nat
  maxDurationSec : ℚ
  allowedMime : List (List Char)
deriving DecidableEq, Repr

/-- Events a request emits while it runs, in order: semaphore acquisition and
release (`async with app.state.sem`), the `prepare_audio_for_model` call, the
`engine.transcribe` call, and the `finally: os.remove(wav_path)`. -/
inductive Ev
  | semAcquire
  | normalizeCall
  | inferenceCall
  | canonicalRemove
  | semRelease
deriving DecidableEq, Repr

/-- One request's inputs beyond the audio environment: the upload's
content type (`none` = Python `None`), the model outcome (`none` = the call
raised; `inferValueError` tells `ValueError` → 400 from other exceptions →
500), and the reference strings of the two endpoints. -/
structure ReqEnv where
  contentType : Option (List Char)
  audio : AudioEnv
  inferResult : Option (List Char)
  inferValueError : Bool
  referenceText : Option (List Char)
  referenceTranscription : List Char
deriving DecidableEq, Repr

/-- Transport-level outcome of a request: the raised `HTTPException` status,
or the JSON response's `wer` field. -/
inductive HandlerOutcome
  | reject415
  | reject413
  | reject400
  | reject500
  | success (wer : Option ℚ)
deriving DecidableEq, Repr

/-- The content-type guard shared by both audio endpoints
(`if file.content_type and file.content_type not in ALLOWED_MIME`): rejection
with 415 requires a truthy (non-`None`, non-empty) content type that is not in
the allowed set. -/
def mimeRejected (contentType : Option (List Char)) (allowedMime : List (List Char)) :
    Bool :=
  match contentType with
  | none => false
  | some ct => !ct.isEmpty && !allowedMime.contains ct

/-- The `POST /transcribe` handler of `app/main.py`: outcome plus event trace.
The semaphore block (`async with app.state.sem`) encloses both
`prepare_audio_for_model` and `engine.transcribe`; the wav file is removed in
the inference `finally`; WER is computed after the block, only when
`reference_text` is provided and non-blank, and `compute_wer` (total in this
embedding) cannot raise, so the `except` fallback is unreachable. -/
def transcribe (cfg : Config) (env : ReqEnv) : HandlerOutcome × List Ev :=
  if mimeRejected env.contentType cfg.allowedMime then (.reject415, [])
  else
    let prep := prepare_audio_for_model env.audio cfg.maxBytes cfg.maxDurationSec
    match prep.result with
    | .error .uploadTooLarge => (.reject413, [.semAcquire, .normalizeCall, .semRelease])
    | .error _ => (.reject400, [.semAcquire, .normalizeCall, .semRelease])
    | .ok _ =>
      match env.inferResult with
      | none =>
        (if env.inferValueError then .reject400 else .reject500,
         [.semAcquire, .normalizeCall, .inferenceCall, .canonicalRemove, .semRelease])
      | some text =>
        let wer_result : Option WerResult :=
          match env.referenceText with
          | none => none
          | some rt =>
            if (pyStrip rt).isEmpty then none else some (compute_wer text rt)
        (.success (match wer_result with | none => none | some w => w.wer),
         [.semAcquire, .normalizeCall, .inferenceCall, .canonicalRemove, .semRelease])

/-- The `POST /transcribe_with_comparison` handler of `app/main.py`: identical
gating, streaming and cleanup structure; WER is always computed, against the
required `reference_transcription` field, after the semaphore block. -/
def transcribe_with_comparison (cfg : Config) (env : ReqEnv) :
    HandlerOutcome × List Ev :=
  if mimeRejected env.contentType cfg.allowedMime then (.reject415, [])
  else
    let prep := prepare_audio_for_model env.audio cfg.maxBytes cfg.maxDurationSec
    match prep.result with
    | .error .uploadTooLarge => (.reject413, [.semAcquire, .normalizeCall, .semRelease])
    | .error _ => (.reject400, [.semAcquire, .normalizeCall, .semRelease])
    | .ok _ =>
      match env.inferResult with
      | none =>
        (if env.inferValueError then .reject400 else .reject500,
         [.semAcquire, .normalizeCall, .inferenceCall, .canonicalRemove, .semRelease])
      | some text =>
        let wer_result := compute_wer text env.referenceTranscription
        (.success wer_result.wer,
         [.semAcquire, .normalizeCall, .inferenceCall, .canonicalRemove, .semRelease])

/-- The events of a trace that happen while the request holds the concurrency
slot: everything strictly between the first `semAcquire` and the following
`semRelease`. -/
def heldSlice (tr : List Ev) : List Ev :=
  ((tr.dropWhile (fun e => e != Ev.semAcquire)).drop 1).takeWhile
    (fun e => e != Ev.semRelease)

/-- The chunks the stream actually offers before the terminating empty read. -/
def effectiveChunks (chunks : List Nat) : List Nat :=
  chunks.takeWhile (fun c => c ≠ 0)

/-! ## Helper lemmas: whitespace and normalization -/

theorem mem_dropWhile_of_not {p : Char → Bool} {c : Char} :
    ∀ {s : List Char}, c ∈ s → p c = false → c ∈ s.dropWhile p
  | [], h, _ => by cases h
  | d :: ds, h, hc => by
    by_cases hd : p d
    · rw [List.dropWhile_cons_of_pos hd]
      rcases List.mem_cons.mp h with rfl | h
      · rw [hd] at hc; cases hc
      · exact mem_dropWhile_of_not h hc
    · rw [List.dropWhile_cons_of_neg hd]
      exact h

theorem dropWhile_forall_iff {p : Char → Bool} :
    ∀ s : List Char, (∀ c ∈ s.dropWhile p, p c) ↔ (∀ c ∈ s, p c)
  | [] => by simp
  | d :: ds => by
    by_cases hd : p d
    · rw [List.dropWhile_cons_of_pos hd]
      rw [dropWhile_forall_iff ds]
      constructor
      · intro h c hc
        rcases List.mem_cons.mp hc with rfl | hc
        · exact hd
        · exact h c hc
      · intro h c hc
        exact h c (List.mem_cons_of_mem _ hc)
    · rw [List.dropWhile_cons_of_neg hd]

theorem pyStrip_eq_nil_iff {s : List Char} :
    pyStrip s = [] ↔ ∀ c ∈ s, isWS c := by
  unfold pyStrip
  rw [List.reverse_eq_nil_iff, List.dropWhile_eq_nil_iff]
  simp only [List.mem_reverse]
  rw [dropWhile_forall_iff]

theorem mem_pyStrip {s : List Char} {c : Char} (hc : c ∈ s) (hw : isWS c = false) :
    c ∈ pyStrip s := by
  unfold pyStrip
  rw [List.mem_reverse]
  exact mem_dropWhile_of_not (List.mem_reverse.mpr (mem_dropWhile_of_not hc hw)) hw

theorem exists_not_ws_of_pyStrip_ne_nil {s : List Char} (h : pyStrip s ≠ []) :
    ∃ c ∈ pyStrip s, isWS c = false := by
  have h2 : ¬ ∀ c ∈ s, isWS c := fun hall => h (pyStrip_eq_nil_iff.mpr hall)
  push_neg at h2
  rcases h2 with ⟨c, hc, hw⟩
  have hw2 : isWS c = false := by simpa using hw
  exact ⟨c, mem_pyStrip hc hw2, hw2⟩

theorem splitWSAux_eq_nil_iff :
    ∀ (s acc : List Char), splitWSAux s acc = [] ↔ (acc = [] ∧ ∀ c ∈ s, isWS c)
  | [], [] => by simp [splitWSAux]
  | [], a :: as => by simp [splitWSAux]
  | c :: cs, acc => by
    by_cases hw : isWS c
    · cases acc with
      | nil => simp [splitWSAux, hw, splitWSAux_eq_nil_iff cs []]
      | cons a as => simp [splitWSAux, hw]
    · simp [splitWSAux, hw, splitWSAux_eq_nil_iff cs (c :: acc)]

theorem pySplit_eq_nil_iff {s : List Char} :
    pySplit s = [] ↔ ∀ c ∈ s, isWS c := by
  unfold pySplit
  rw [splitWSAux_eq_nil_iff]
  simp

theorem ws_toLower {c : Char} (h : isWS c = true) : c.toLower = c := by
  simp only [isWS, Bool.or_eq_true, decide_eq_true_eq] at h
  rcases h with ((((h | h) | h) | h) | h) | h <;> subst h <;> decide

theorem toLowerCase_blank {s : List Char} (h : ∀ c ∈ s, isWS c) :
    ∀ c ∈ toLowerCase s, isWS c := by
  intro c hc
  rcases List.mem_map.mp hc with ⟨d, hd, rfl⟩
  rw [ws_toLower (h d hd)]
  exact h d hd

theorem removePunctuation_blank {s : List Char} (h : ∀ c ∈ s, isWS c) :
    ∀ c ∈ removePunctuation s, isWS c := by
  intro c hc
  exact h c (List.mem_of_mem_filter hc)

theorem collapseAux_true_blank :
    ∀ {s : List Char}, (∀ c ∈ s, isWS c) → collapseAux true s = []
  | [], _ => rfl
  | c :: cs, h => by
    unfold collapseAux
    rw [if_pos (h c (List.mem_cons_self c cs)), if_pos rfl]
    exact collapseAux_true_blank (fun d hd => h d (List.mem_cons_of_mem _ hd))

theorem removeMultipleSpaces_blank {s : List Char} (h : ∀ c ∈ s, isWS c) :
    removeMultipleSpaces s = [] ∨ removeMultipleSpaces s = [' '] := by
  unfold removeMultipleSpaces
  cases s with
  | nil => exact Or.inl rfl
  | cons c cs =>
    right
    unfold collapseAux
    rw [if_pos (h c (List.mem_cons_self c cs)), if_neg (by decide)]
    rw [collapseAux_true_blank (fun d hd => h d (List.mem_cons_of_mem _ hd))]

theorem DEFAULT_TRANSFORM_blank {s : List Char} (h : ∀ c ∈ s, isWS c) :
    DEFAULT_TRANSFORM s = [] := by
  unfold DEFAULT_TRANSFORM
  rcases removeMultipleSpaces_blank
      (removePunctuation_blank (toLowerCase_blank h)) with hr | hr <;> rw [hr] <;> decide

theorem DEFAULT_TRANSFORM_of_pyStrip_nil {s : List Char} (h : pyStrip s = []) :
    DEFAULT_TRANSFORM s = [] :=
  DEFAULT_TRANSFORM_blank (pyStrip_eq_nil_iff.mp h)

theorem pyStrip_pyStrip_ne_nil {u : List Char} (h : pyStrip u ≠ []) :
    pyStrip (pyStrip u) ≠ [] := by
  rcases exists_not_ws_of_pyStrip_ne_nil h with ⟨c, hc, hw⟩
  intro hnil
  have := pyStrip_eq_nil_iff.mp hnil c hc
  rw [this] at hw
  cases hw

theorem pyStrip_sublist (u : List Char) : List.Sublist (pyStrip u) u := by
  unfold pyStrip
  have h2 := (List.dropWhile_sublist (l := (u.dropWhile isWS).reverse) (p := isWS)).reverse
  rw [List.reverse_reverse] at h2
  exact h2.trans (List.dropWhile_sublist _)

theorem pySplit_ne_nil_of_pyStrip_ne_nil {u : List Char} (h : pyStrip u ≠ []) :
    pySplit u ≠ [] := by
  rcases exists_not_ws_of_pyStrip_ne_nil h with ⟨c, hc, hw⟩
  intro hnil
  have hmem : c ∈ u := (pyStrip_sublist u).subset hc
  have := pySplit_eq_nil_iff.mp hnil c hmem
  rw [this] at hw
  cases hw

theorem pyStrip_of_transform_ne_nil {s : List Char} (h : DEFAULT_TRANSFORM s ≠ []) :
    pyStrip (DEFAULT_TRANSFORM s) ≠ [] :=
  pyStrip_pyStrip_ne_nil (u := removeMultipleSpaces (removePunctuation (toLowerCase s))) h

theorem pySplit_of_transform_ne_nil {s : List Char} (h : DEFAULT_TRANSFORM s ≠ []) :
    pySplit (DEFAULT_TRANSFORM s) ≠ [] :=
  pySplit_ne_nil_of_pyStrip_ne_nil (pyStrip_of_transform_ne_nil h)

/-! ## Helper lemmas: alignment counts -/

theorem alignFuel_counts :
    ∀ (f : Nat) (ref hyp : List (List Char)), ref.length + hyp.length ≤ f →
      (alignFuel f ref hyp).hits + (alignFuel f ref hyp).substitutions +
        (alignFuel f ref hyp).deletions = ref.length := by
  intro f
  induction f with
  | zero =>
    intro ref hyp hf
    cases ref with
    | nil => simp [alignFuel]
    | cons r rs => simp at hf
  | succ f ih =>
    intro ref hyp hf
    cases ref with
    | nil => simp [alignFuel]
    | cons r rs =>
      cases hyp with
      | nil =>
        have h1 : rs.length + List.length ([] : List (List Char)) ≤ f := by
          simp at hf ⊢; omega
        have := ih rs [] h1
        simp only [alignFuel]
        simp at this ⊢
        omega
      | cons h hs =>
        have hbound : rs.length + hs.length ≤ f := by simp at hf; omega
        have hboundd : rs.length + (h :: hs).length ≤ f := by simp at hf ⊢; omega
        have hboundi : (r :: rs).length + hs.length ≤ f := by simp at hf ⊢; omega
        have ihs := ih rs hs hbound
        have ihd := ih rs (h :: hs) hboundd
        have ihi := ih (r :: rs) hs hboundi
        simp only [alignFuel]
        by_cases hrh : r = h
        · simp only [if_pos hrh]
          simp at ihs ⊢
          omega
        · simp only [if_neg hrh]
          by_cases hc1 : editCost (alignFuel f rs hs) ≤ editCost (alignFuel f rs (h :: hs)) ∧
              editCost (alignFuel f rs hs) ≤ editCost (alignFuel f (r :: rs) hs)
          · simp only [if_pos hc1]
            simp at ihs ⊢
            omega
          · simp only [if_neg hc1]
            by_cases hc2 : editCost (alignFuel f rs (h :: hs)) ≤
                editCost (alignFuel f (r :: rs) hs)
            · simp only [if_pos hc2]
              simp at ihd ⊢
              omega
            · simp only [if_neg hc2]
              simp at ihi ⊢
              omega

/-- The alignment invariant: every reference word is a hit, a substitution or
a deletion. -/
theorem process_words_counts (ref hyp : List (List Char)) :
    (process_words ref hyp).hits + (process_words ref hyp).substitutions +
      (process_words ref hyp).deletions = ref.length :=
  alignFuel_counts (ref.length + hyp.length) ref hyp (Nat.le_refl _)

theorem alignFuel_self :
    ∀ (f : Nat) (ws : List (List Char)), ws.length ≤ f →
      alignFuel f ws ws = ⟨ws.length, 0, 0, 0⟩ := by
  intro f
  induction f with
  | zero =>
    intro ws hf
    cases ws with
    | nil => simp [alignFuel]
    | cons w ws => simp at hf
  | succ f ih =>
    intro ws hf
    cases ws with
    | nil => simp [alignFuel]
    | cons w ws =>
      simp only [alignFuel, if_pos rfl]
      rw [ih ws (by simp at hf; omega)]
      simp

/-- Aligning a non-empty word list with itself yields only hits. -/
theorem process_words_self (ws : List (List Char)) :
    process_words ws ws = ⟨ws.length, 0, 0, 0⟩ :=
  alignFuel_self (ws.length + ws.length) ws (by omega)

/-! ## Helper lemmas: upload ingestion -/

theorem iterChunks_le :
    ∀ (chunks : List Nat) (acc maxB : Nat), acc ≤ maxB →
      acc + (iterChunks chunks acc maxB).1 ≤ maxB := by
  intro chunks
  induction chunks with
  | nil => intro acc maxB h; simpa [iterChunks] using h
  | cons c cs ih =>
    intro acc maxB h
    simp only [iterChunks]
    by_cases hc : c = 0
    · simpa [hc] using h
    · simp only [if_neg hc]
      by_cases hover : acc + c > maxB
      · simpa [hover] using h
      · have hle : acc + c ≤ maxB := by omega
        simp only [if_neg (by omega : ¬ acc + c > maxB)]
        have := ih (acc + c) maxB hle
        omega

theorem effectiveChunks_nil : effectiveChunks [] = [] := rfl

theorem effectiveChunks_cons_zero (cs : List Nat) : effectiveChunks (0 :: cs) = [] := by
  simp [effectiveChunks, List.takeWhile_cons]

theorem effectiveChunks_cons_ne {c : Nat} (hc : c ≠ 0) (cs : List Nat) :
    effectiveChunks (c :: cs) = c :: effectiveChunks cs := by
  simp [effectiveChunks, List.takeWhile_cons, hc]

theorem iterChunks_ok_iff :
    ∀ (chunks : List Nat) (acc maxB : Nat), acc ≤ maxB →
      ((iterChunks chunks acc maxB).2 = true ↔
        acc + (effectiveChunks chunks).sum ≤ maxB) := by
  intro chunks
  induction chunks with
  | nil =>
    intro acc maxB h
    simp [iterChunks, effectiveChunks, h]
  | cons c cs ih =>
    intro acc maxB h
    simp only [iterChunks]
    by_cases hc : c = 0
    · subst hc
      rw [effectiveChunks_cons_zero]
      simpa using h
    · rw [effectiveChunks_cons_ne hc]
      simp only [if_neg hc]
      by_cases hover : acc + c > maxB
      · simp only [if_pos hover]
        constructor
        · intro hfalse; cases hfalse
        · intro hsum
          simp only [List.sum_cons] at hsum
          omega
      · simp only [if_neg hover]
        have := ih (acc + c) maxB (by omega)
        simp only [List.sum_cons]
        rw [this]
        constructor <;> intro <;> omega

theorem iterChunks_cross :
    ∀ (chunks : List Nat) (acc maxB : Nat), acc ≤ maxB →
      (iterChunks chunks acc maxB).2 = false →
      ∃ pre c post, effectiveChunks chunks = pre ++ c :: post ∧
        (iterChunks chunks acc maxB).1 = pre.sum ∧
        acc + pre.sum ≤ maxB ∧ acc + pre.sum + c > maxB := by
  intro chunks
  induction chunks with
  | nil => intro acc maxB _ hfail; simp [iterChunks] at hfail
  | cons c cs ih =>
    intro acc maxB h hfail
    simp only [iterChunks] at hfail
    by_cases hc : c = 0
    · simp [hc] at hfail
    · simp only [if_neg hc] at hfail
      by_cases hover : acc + c > maxB
      · refine ⟨[], c, effectiveChunks cs, ?_, ?_, ?_, ?_⟩
        · rw [effectiveChunks_cons_ne hc]; rfl
        · simp [iterChunks, if_neg hc, if_pos hover]
        · simpa using h
        · simpa using hover
      · simp only [if_neg hover] at hfail
        rcases ih (acc + c) maxB (by omega) hfail with ⟨pre, d, post, heq, hw, hle, hgt⟩
        refine ⟨c :: pre, d, post, ?_, ?_, ?_, ?_⟩
        · rw [effectiveChunks_cons_ne hc, heq]; rfl
        · simp only [iterChunks, if_neg hc, if_neg hover]
          simp only [List.sum_cons]
          omega
        · simp only [List.sum_cons]; omega
        · simp only [List.sum_cons]; omega

/-! ## Helper lemmas: `compute_wer` branch characterizations -/

theorem compute_wer_ref_blank {hyp ref : List Char} (h : pyStrip ref = []) :
    compute_wer hyp ref = ⟨none, 0, 0, 0, 0, 0, some "Reference text is empty"⟩ := by
  unfold compute_wer
  rw [if_pos (by simp [h])]

theorem compute_wer_hyp_blank {hyp ref : List Char} (hr : pyStrip ref ≠ [])
    (hh : pyStrip hyp = []) :
    compute_wer hyp ref =
      ⟨some 1, 0, 0, (pySplit (pyStrip ref)).length, 0,
        (pySplit (pyStrip ref)).length, none⟩ := by
  unfold compute_wer
  rw [if_neg (by simpa [List.isEmpty_iff] using hr), if_pos (by simp [hh])]

theorem compute_wer_norm_ref_blank {hyp ref : List Char} (hr : pyStrip ref ≠ [])
    (hh : pyStrip hyp ≠ []) (ht : DEFAULT_TRANSFORM ref = []) :
    compute_wer hyp ref =
      ⟨none, 0, 0, 0, 0, 0, some "Reference text is empty after normalization"⟩ := by
  unfold compute_wer
  rw [if_neg (by simpa [List.isEmpty_iff] using hr),
    if_neg (by simpa [List.isEmpty_iff] using hh), if_pos (by simp [ht, pyStrip])]

theorem compute_wer_norm_hyp_blank {hyp ref : List Char} (hr : pyStrip ref ≠ [])
    (hh : pyStrip hyp ≠ []) (htr : DEFAULT_TRANSFORM ref ≠ [])
    (hth : pyStrip (DEFAULT_TRANSFORM hyp) = []) :
    compute_wer hyp ref =
      ⟨some 1, 0, 0, (pySplit (DEFAULT_TRANSFORM ref)).length, 0,
        (pySplit (DEFAULT_TRANSFORM ref)).length, none⟩ := by
  unfold compute_wer
  rw [if_neg (by simpa [List.isEmpty_iff] using hr),
    if_neg (by simpa [List.isEmpty_iff] using hh),
    if_neg (by simpa [List.isEmpty_iff] using pyStrip_of_transform_ne_nil htr),
    if_pos (by simp [hth])]

theorem compute_wer_main {hyp ref : List Char} (hr : pyStrip ref ≠ [])
    (hh : pyStrip hyp ≠ []) (htr : DEFAULT_TRANSFORM ref ≠ [])
    (hth : pyStrip (DEFAULT_TRANSFORM hyp) ≠ []) :
    compute_wer hyp ref =
      ⟨some
          (((process_words (pySplit (DEFAULT_TRANSFORM ref))
                  (pySplit (DEFAULT_TRANSFORM hyp))).substitutions +
              (process_words (pySplit (DEFAULT_TRANSFORM ref))
                  (pySplit (DEFAULT_TRANSFORM hyp))).deletions +
              (process_words (pySplit (DEFAULT_TRANSFORM ref))
                  (pySplit (DEFAULT_TRANSFORM hyp))).insertions : ℚ) /
            (((process_words (pySplit (DEFAULT_TRANSFORM ref))
                  (pySplit (DEFAULT_TRANSFORM hyp))).hits +
              (process_words (pySplit (DEFAULT_TRANSFORM ref))
                  (pySplit (DEFAULT_TRANSFORM hyp))).substitutions +
              (process_words (pySplit (DEFAULT_TRANSFORM ref))
                  (pySplit (DEFAULT_TRANSFORM hyp))).deletions : Nat) : ℚ)),
        (process_words (pySplit (DEFAULT_TRANSFORM ref))
            (pySplit (DEFAULT_TRANSFORM hyp))).hits,
        (process_words (pySplit (DEFAULT_TRANSFORM ref))
            (pySplit (DEFAULT_TRANSFORM hyp))).substitutions,
        (process_words (pySplit (DEFAULT_TRANSFORM ref))
            (pySplit (DEFAULT_TRANSFORM hyp))).deletions,
        (process_words (pySplit (DEFAULT_TRANSFORM ref))
            (pySplit (DEFAULT_TRANSFORM hyp))).insertions,
        (process_words (pySplit (DEFAULT_TRANSFORM ref))
            (pySplit (DEFAULT_TRANSFORM hyp))).hits +
          (process_words (pySplit (DEFAULT_TRANSFORM ref))
              (pySplit (DEFAULT_TRANSFORM hyp))).substitutions +
          (process_words (pySplit (DEFAULT_TRANSFORM ref))
              (pySplit (DEFAULT_TRANSFORM hyp))).deletions,
        none⟩ := by
  have hlen : (process_words (pySplit (DEFAULT_TRANSFORM ref))
      (pySplit (DEFAULT_TRANSFORM hyp))).hits +
      (process_words (pySplit (DEFAULT_TRANSFORM ref))
          (pySplit (DEFAULT_TRANSFORM hyp))).substitutions +
      (process_words (pySplit (DEFAULT_TRANSFORM ref))
          (pySplit (DEFAULT_TRANSFORM hyp))).deletions =
      (pySplit (DEFAULT_TRANSFORM ref)).length :=
    process_words_counts _ _
  have hne : (pySplit (DEFAULT_TRANSFORM ref)).length ≠ 0 := by
    have := pySplit_of_transform_ne_nil htr
    intro hz
    exact this (List.length_eq_zero.mp hz)
  unfold compute_wer
  rw [if_neg (by simpa [List.isEmpty_iff] using hr),
    if_neg (by simpa [List.isEmpty_iff] using hh),
    if_neg (by simpa [List.isEmpty_iff] using pyStrip_of_transform_ne_nil htr),
    if_neg (by simpa [List.isEmpty_iff] using hth),
    if_neg (by rw [hlen]; exact hne)]

/-! ## Helper lemmas: event traces -/

theorem normalizeCall_mem_heldSlice_short :
    Ev.normalizeCall ∈
      heldSlice [Ev.semAcquire, Ev.normalizeCall, Ev.semRelease] := by decide

theorem normalizeCall_mem_heldSlice_full :
    Ev.normalizeCall ∈
      heldSlice [Ev.semAcquire, Ev.normalizeCall, Ev.inferenceCall,
        Ev.canonicalRemove, Ev.semRelease] := by decide

theorem normalizeCall_mem_events_short :
    Ev.normalizeCall ∈ [Ev.semAcquire, Ev.normalizeCall, Ev.semRelease] := by decide

theorem normalizeCall_mem_events_full :
    Ev.normalizeCall ∈ [Ev.semAcquire, Ev.normalizeCall, Ev.inferenceCall,
      Ev.canonicalRemove, Ev.semRelease] := by decide

/-! ## Claims -/

/-- C4, counterexample: with hypothesis `""` and reference `"x , y"`, the
pre-normalization empty-hypothesis short-circuit of `compute_wer` sets
`deletions` (and `reference_length`) to the *raw* whitespace word count of the
reference (3: `x`, `,`, `y`), not to the word count of the normalized
reference (2: `x`, `y`), refuting the claim at this input. -/
theorem C4_counterexample :
    (compute_wer "".toList "x , y".toList).wer = some 1 ∧
      (compute_wer "".toList "x , y".toList).deletions ≠
        (pySplit (DEFAULT_TRANSFORM "x , y".toList)).length := by
  constructor
  · decide
  · decide

/-- C4 (amended): for a reference that is non-blank before normalization and
an empty/whitespace-only hypothesis, `compute_wer` short-circuits to
`wer = 1.0`, `hits = substitutions = insertions = 0`, and
`deletions = reference_length`; the count is the word count of the *raw*
(stripped, un-normalized) reference when the hypothesis is blank before
normalization, and the word count of the *normalized* reference when the
hypothesis only becomes blank after normalization (with the normalized
reference non-empty). -/
theorem C4_empty_hypothesis (hyp ref : List Char) (hr : pyStrip ref ≠ []) :
    (pyStrip hyp = [] →
      compute_wer hyp ref =
        ⟨some 1, 0, 0, (pySplit (pyStrip ref)).length, 0,
          (pySplit (pyStrip ref)).length, none⟩) ∧
    (pyStrip hyp ≠ [] → DEFAULT_TRANSFORM ref ≠ [] →
      pyStrip (DEFAULT_TRANSFORM hyp) = [] →
      compute_wer hyp ref =
        ⟨some 1, 0, 0, (pySplit (DEFAULT_TRANSFORM ref)).length, 0,
          (pySplit (DEFAULT_TRANSFORM ref)).length, none⟩) := by
  constructor
  · intro hh
    exact compute_wer_hyp_blank hr hh
  · intro hh htr hth
    exact compute_wer_norm_hyp_blank hr hh htr hth

/-- C4, witness: at hypothesis `""` and reference `"x , y"` the amended
theorem applies and yields the short-circuit result with the raw word
count 3. -/
theorem C4_witness :
    compute_wer "".toList "x , y".toList = ⟨some 1, 0, 0, 3, 0, 3, none⟩ := by
  have h := (C4_empty_hypothesis "".toList "x , y".toList (by decide)).1 (by decide)
  rw [h]
  decide

/-- C5, counterexample: with hypothesis `" "` (whitespace-only) and reference
`"a , b"`, the normalized reference `"a b"` is non-empty (so the claim's
premise holds) and `hits + substitutions + deletions = reference_length`
holds, but `reference_length` is 3 (the raw word count), not the normalized
word count 2 — refuting the claim's conjunction at this input. -/
theorem C5_counterexample :
    DEFAULT_TRANSFORM "a , b".toList ≠ [] ∧
      ¬ ((compute_wer " ".toList "a , b".toList).hits +
            (compute_wer " ".toList "a , b".toList).substitutions +
            (compute_wer " ".toList "a , b".toList).deletions =
          (compute_wer " ".toList "a , b".toList).reference_length ∧
        (compute_wer " ".toList "a , b".toList).reference_length =
          (pySplit (DEFAULT_TRANSFORM "a , b".toList)).length) := by
  constructor
  · decide
  · decide

/-- C5 (amended): whenever the normalized reference is non-empty,
`hits + substitutions + deletions = reference_length` holds on every branch of
`compute_wer`; and whenever additionally the hypothesis is non-blank *before*
normalization, `reference_length` equals the word count of the normalized
reference.  (The pre-normalization empty-hypothesis short-circuit instead uses
the raw reference's word count, which is what the counterexample exhibits.) -/
theorem C5_reference_length_invariant (hyp ref : List Char)
    (h : DEFAULT_TRANSFORM ref ≠ []) :
    (compute_wer hyp ref).hits + (compute_wer hyp ref).substitutions +
        (compute_wer hyp ref).deletions = (compute_wer hyp ref).reference_length ∧
    (pyStrip hyp ≠ [] →
      (compute_wer hyp ref).reference_length =
        (pySplit (DEFAULT_TRANSFORM ref)).length) := by
  have hr : pyStrip ref ≠ [] := fun hblank => h (DEFAULT_TRANSFORM_of_pyStrip_nil hblank)
  by_cases hh : pyStrip hyp = []
  · rw [compute_wer_hyp_blank hr hh]
    exact ⟨by simp, fun hcontra => absurd hh hcontra⟩
  · by_cases hth : pyStrip (DEFAULT_TRANSFORM hyp) = []
    · rw [compute_wer_norm_hyp_blank hr hh h hth]
      exact ⟨by simp, fun _ => rfl⟩
    · rw [compute_wer_main hr hh h hth]
      refine ⟨rfl, fun _ => ?_⟩
      exact process_words_counts _ _

/-- C5, witness: at hypothesis `"b a"` and reference `"a b"` the premise of
the amended theorem holds and both conjuncts apply. -/
theorem C5_witness :
    (compute_wer "b a".toList "a b".toList).hits +
        (compute_wer "b a".toList "a b".toList).substitutions +
        (compute_wer "b a".toList "a b".toList).deletions =
      (compute_wer "b a".toList "a b".toList).reference_length ∧
    (compute_wer "b a".toList "a b".toList).reference_length =
      (pySplit (DEFAULT_TRANSFORM "a b".toList)).length :=
  ⟨(C5_reference_length_invariant "b a".toList "a b".toList (by decide)).1,
   (C5_reference_length_invariant "b a".toList "a b".toList (by decide)).2 (by decide)⟩

/-- C8, counterexample: with hypothesis `""` and reference `",,"`, the
reference is whitespace-only *after* normalization (punctuation is stripped),
yet the empty-hypothesis short-circuit fires first and returns `wer = 1.0`
with `deletions = reference_length = 1` — not the undefined (`None`) WER with
zero counts and an error flag that the claim requires. -/
theorem C8_counterexample :
    DEFAULT_TRANSFORM ",,".toList = [] ∧
      (compute_wer "".toList ",,".toList).wer = some 1 ∧
      (compute_wer "".toList ",,".toList).wer ≠ none ∧
      (compute_wer "".toList ",,".toList).deletions ≠ 0 := by
  refine ⟨by decide, by decide, by decide, by decide⟩

/-- C8 (amended): `compute_wer` (total in this embedding — it always returns a
result object and performs no division on these paths) returns
`wer = None`, all counts `0` and an explanatory error flag (a) whenever the
reference is empty/whitespace-only before normalization, and (b) whenever the
hypothesis is non-blank before normalization and the reference normalizes to
the empty string.  When the hypothesis is blank before normalization and the
reference is not, the empty-hypothesis short-circuit wins even if the
reference would normalize to blank (the counterexample input). -/
theorem C8_empty_reference (hyp ref : List Char) :
    (pyStrip ref = [] →
      compute_wer hyp ref = ⟨none, 0, 0, 0, 0, 0, some "Reference text is empty"⟩) ∧
    (pyStrip ref ≠ [] → pyStrip hyp ≠ [] → DEFAULT_TRANSFORM ref = [] →
      compute_wer hyp ref =
        ⟨none, 0, 0, 0, 0, 0, some "Reference text is empty after normalization"⟩) := by
  constructor
  · intro h
    exact compute_wer_ref_blank h
  · intro hr hh ht
    exact compute_wer_norm_ref_blank hr hh ht

/-- C8, witness: a whitespace-only reference (pre-normalization case) and a
punctuation-only reference with non-blank hypothesis (post-normalization
case). -/
theorem C8_witness :
    compute_wer "abc".toList "   ".toList =
        ⟨none, 0, 0, 0, 0, 0, some "Reference text is empty"⟩ ∧
      compute_wer "abc".toList ",,".toList =
        ⟨none, 0, 0, 0, 0, 0, some "Reference text is empty after normalization"⟩ :=
  ⟨(C8_empty_reference "abc".toList "   ".toList).1 (by decide),
   (C8_empty_reference "abc".toList ",,".toList).2 (by decide) (by decide) (by decide)⟩

/-- C9: scoring any string against itself, when it is non-empty after
normalization, yields `wer = 0.0`, `hits = reference_length` (the normalized
word count) and zero substitutions, deletions and insertions. -/
theorem C9_self_score (X : List Char) (h : DEFAULT_TRANSFORM X ≠ []) :
    (compute_wer X X).wer = some 0 ∧
    (compute_wer X X).hits = (compute_wer X X).reference_length ∧
    (compute_wer X X).reference_length = (pySplit (DEFAULT_TRANSFORM X)).length ∧
    (compute_wer X X).substitutions = 0 ∧
    (compute_wer X X).deletions = 0 ∧
    (compute_wer X X).insertions = 0 := by
  have hr : pyStrip X ≠ [] := fun hblank => h (DEFAULT_TRANSFORM_of_pyStrip_nil hblank)
  have hth : pyStrip (DEFAULT_TRANSFORM X) ≠ [] := pyStrip_of_transform_ne_nil h
  rw [compute_wer_main hr hr h hth]
  rw [process_words_self (pySplit (DEFAULT_TRANSFORM X))]
  refine ⟨?_, rfl, by simp, rfl, rfl, rfl⟩
  simp

/-- C9, witness: `"It works."` scored against itself. -/
theorem C9_witness :
    DEFAULT_TRANSFORM "It works.".toList ≠ [] ∧
      (compute_wer "It works.".toList "It works.".toList).wer = some 0 ∧
      (compute_wer "It works.".toList "It works.".toList).hits =
        (compute_wer "It works.".toList "It works.".toList).reference_length :=
  ⟨by decide,
   (C9_self_score "It works.".toList (by decide)).1,
   (C9_self_score "It works.".toList (by decide)).2.1⟩

/-- C1, counterexample: on a request that passes the MIME check, the
`/transcribe` handler's event trace places the `prepare_audio_for_model` call
*between* semaphore acquisition and release — normalization runs while the
request holds a gate permit, refuting the claim at this concrete request. -/
theorem C1_counterexample :
    Ev.normalizeCall ∈ heldSlice
      (transcribe ⟨100, 3600, []⟩
        ⟨none, ⟨[5], true, true, 1, true⟩, some "t".toList, false, none, []⟩).2 := by
  decide

/-- C1 (amended): on every request that passes the MIME check, both audio
endpoints acquire the concurrency slot *before* normalization and hold it
across both normalization and inference: the normalization call always lies
strictly between `semAcquire` and `semRelease` in the event trace. -/
theorem C1_slot_spans_normalization (cfg : Config) (env : ReqEnv)
    (h : mimeRejected env.contentType cfg.allowedMime = false) :
    Ev.normalizeCall ∈ heldSlice (transcribe cfg env).2 ∧
      Ev.normalizeCall ∈ heldSlice (transcribe_with_comparison cfg env).2 := by
  constructor
  · simp only [transcribe, h, Bool.false_eq_true, if_false]
    rcases (prepare_audio_for_model env.audio cfg.maxBytes cfg.maxDurationSec).result
      with d | e
    · cases env.inferResult <;> exact normalizeCall_mem_heldSlice_full
    · cases e <;> exact normalizeCall_mem_heldSlice_short
  · simp only [transcribe_with_comparison, h, Bool.false_eq_true, if_false]
    rcases (prepare_audio_for_model env.audio cfg.maxBytes cfg.maxDurationSec).result
      with d | e
    · cases env.inferResult <;> exact normalizeCall_mem_heldSlice_full
    · cases e <;> exact normalizeCall_mem_heldSlice_short

/-- C1, witness: a concrete in-limit request on which the amended theorem
applies. -/
theorem C1_witness :
    Ev.normalizeCall ∈ heldSlice
      (transcribe_with_comparison ⟨50, 60, []⟩
        ⟨none, ⟨[7], true, true, 2, true⟩, some "out".toList, false, none,
          "ref".toList⟩).2 :=
  (C1_slot_spans_normalization ⟨50, 60, []⟩
    ⟨none, ⟨[7], true, true, 2, true⟩, some "out".toList, false, none,
      "ref".toList⟩ (by decide)).2

/-- C2, counterexample: a stream of chunks `[3, 6]` against a 5-byte ceiling
fails mid-stream (the second chunk crosses the ceiling); the raw temp file was
created and holds the 3 already-written bytes, but `rawDeleted = false`: the
exception propagates out of `save_upload_to_tmp` before `raw_path` is
assigned, so the `finally` cleanup never runs and the partial file is leaked,
refuting the claim. -/
theorem C2_counterexample :
    (prepare_audio_for_model ⟨[3, 6], true, true, 1, true⟩ 5 3600).rawCreated = true ∧
      (prepare_audio_for_model ⟨[3, 6], true, true, 1, true⟩ 5 3600).rawBytes = 3 ∧
      (prepare_audio_for_model ⟨[3, 6], true, true, 1, true⟩ 5 3600).rawDeleted = false ∧
      (prepare_audio_for_model ⟨[3, 6], true, true, 1, true⟩ 5 3600).result =
        .error .uploadTooLarge := by
  refine ⟨by decide, by decide, by decide, by decide⟩

/-- C2 (amended): the raw uploaded-bytes temp file is always created, and it
is deleted exactly when upload ingestion ran to completion
(`save_upload_to_tmp` returned): on every later failure (probe, duration
check, transcode) the `finally` block deletes it, but when the stream itself
fails mid-write (size ceiling exceeded) the partial raw file is leaked. -/
theorem C2_raw_cleanup_iff_ingested (env : AudioEnv) (maxB : Nat) (maxD : ℚ) :
    (prepare_audio_for_model env maxB maxD).rawCreated = true ∧
      (prepare_audio_for_model env maxB maxD).rawDeleted =
        (save_upload_to_tmp env.chunks maxB).ok := by
  by_cases h1 : (save_upload_to_tmp env.chunks maxB).ok <;>
    by_cases h2 : env.decodable <;>
    by_cases h3 : env.probeOk <;>
    by_cases h4 : env.duration > maxD <;>
    by_cases h5 : env.transcodeOk <;>
    simp [prepare_audio_for_model, h1, h2, h3, h4, h5]

/-- C3, counterexample: on a decodable, in-limit input whose transcode step
fails, `prepare_audio_for_model` has already created the canonical `.wav` temp
file (via `tempfile.mkstemp`) and returns the transcode error without deleting
it, refuting the zero-canonical-files-on-failure claim. -/
theorem C3_counterexample :
    (prepare_audio_for_model ⟨[2], true, true, 1, false⟩ 100 3600).result =
        .error .transcodeFailed ∧
      (prepare_audio_for_model ⟨[2], true, true, 1, false⟩ 100 3600).canonicalCreated =
        true ∧
      (prepare_audio_for_model ⟨[2], true, true, 1, false⟩ 100 3600).canonicalDeleted =
        false := by
  refine ⟨by decide, by decide, by decide⟩

/-- C3 (amended): on success exactly one canonical temp file is created (one
`mkstemp` call, never deleted by the normalizer itself — the caller removes it
after inference); on failures before the transcode stage no canonical file is
created; but on a transcode failure the already-created canonical output file
is *left behind*, not deleted before the error is returned. -/
theorem C3_canonical_lifecycle (env : AudioEnv) (maxB : Nat) (maxD : ℚ) :
    (∀ d, (prepare_audio_for_model env maxB maxD).result = .ok d →
      (prepare_audio_for_model env maxB maxD).canonicalCreated = true ∧
        (prepare_audio_for_model env maxB maxD).canonicalDeleted = false) ∧
    ((prepare_audio_for_model env maxB maxD).result = .error .transcodeFailed →
      (prepare_audio_for_model env maxB maxD).canonicalCreated = true ∧
        (prepare_audio_for_model env maxB maxD).canonicalDeleted = false) ∧
    (∀ e, e ≠ PrepError.transcodeFailed →
      (prepare_audio_for_model env maxB maxD).result = .error e →
      (prepare_audio_for_model env maxB maxD).canonicalCreated = false) := by
  by_cases h1 : (save_upload_to_tmp env.chunks maxB).ok <;>
    by_cases h2 : env.decodable <;>
    by_cases h3 : env.probeOk <;>
    by_cases h4 : env.duration > maxD <;>
    by_cases h5 : env.transcodeOk <;>
    simp [prepare_audio_for_model, h1, h2, h3, h4, h5]
  exact fun e he h2 => he h2.symm

/-- C3, witness: the transcode-failure clause of the amended theorem at a
concrete environment. -/
theorem C3_witness :
    (prepare_audio_for_model ⟨[4], true, true, 9, false⟩ 50 3600).canonicalCreated =
        true ∧
      (prepare_audio_for_model ⟨[4], true, true, 9, false⟩ 50 3600).canonicalDeleted =
        false :=
  (C3_canonical_lifecycle ⟨[4], true, true, 9, false⟩ 50 3600).2.1 (by decide)

/-- C6: whenever the probed duration exceeds the configured maximum, the
external codec is never invoked (`transcodeCalled = false` on every such
path), and if ingestion, decodability and probing all succeeded, the outcome
is exactly the audio-too-long error. -/
theorem C6_too_long_never_transcodes (env : AudioEnv) (maxB : Nat) (maxD : ℚ)
    (h : env.duration > maxD) :
    (prepare_audio_for_model env maxB maxD).transcodeCalled = false ∧
      ((save_upload_to_tmp env.chunks maxB).ok = true → env.decodable = true →
        env.probeOk = true →
        (prepare_audio_for_model env maxB maxD).result = .error .audioTooLong) := by
  constructor
  · by_cases h1 : (save_upload_to_tmp env.chunks maxB).ok <;>
      by_cases h2 : env.decodable <;>
      by_cases h3 : env.probeOk <;>
      simp [prepare_audio_for_model, h1, h2, h3, h]
  · intro hok hdec hprobe
    simp [prepare_audio_for_model, hok, hdec, hprobe, h]

/-- C6, witness: a 7200-second input against a 3600-second ceiling. -/
theorem C6_witness :
    (prepare_audio_for_model ⟨[5], true, true, 7200, true⟩ 100 3600).transcodeCalled =
        false ∧
      (prepare_audio_for_model ⟨[5], true, true, 7200, true⟩ 100 3600).result =
        .error .audioTooLong :=
  ⟨(C6_too_long_never_transcodes ⟨[5], true, true, 7200, true⟩ 100 3600 (by decide)).1,
   (C6_too_long_never_transcodes ⟨[5], true, true, 7200, true⟩ 100 3600 (by decide)).2
     (by decide) rfl rfl⟩

/-- C7: the streaming size guard (a) never materializes more than `maxBytes`
raw bytes, (b) succeeds exactly when the stream's effective chunks fit within
the ceiling (no silent truncation), (c) on failure aborts exactly at the first
chunk whose inclusion crosses the ceiling — the bytes written are precisely
the sum of the chunks before it, which still fits, while adding the crossing
chunk overflows (that chunk is never written) — and (d) on failure both
endpoints reject with HTTP 413 when the request passed the MIME check. -/
theorem C7_size_ceiling (cfg : Config) (env : ReqEnv) :
    (save_upload_to_tmp env.audio.chunks cfg.maxBytes).bytesWritten ≤ cfg.maxBytes ∧
    ((save_upload_to_tmp env.audio.chunks cfg.maxBytes).ok = true ↔
      (effectiveChunks env.audio.chunks).sum ≤ cfg.maxBytes) ∧
    ((save_upload_to_tmp env.audio.chunks cfg.maxBytes).ok = false →
      ∃ pre c post, effectiveChunks env.audio.chunks = pre ++ c :: post ∧
        (save_upload_to_tmp env.audio.chunks cfg.maxBytes).bytesWritten = pre.sum ∧
        pre.sum ≤ cfg.maxBytes ∧ pre.sum + c > cfg.maxBytes) ∧
    ((save_upload_to_tmp env.audio.chunks cfg.maxBytes).ok = false →
      mimeRejected env.contentType cfg.allowedMime = false →
      (transcribe cfg env).1 = .reject413 ∧
        (transcribe_with_comparison cfg env).1 = .reject413) := by
  refine ⟨?_, ?_, ?_, ?_⟩
  · have := iterChunks_le env.audio.chunks 0 cfg.maxBytes (Nat.zero_le _)
    simpa [save_upload_to_tmp] using this
  · have := iterChunks_ok_iff env.audio.chunks 0 cfg.maxBytes (Nat.zero_le _)
    simpa [save_upload_to_tmp] using this
  · intro hfail
    have hfail2 : (iterChunks env.audio.chunks 0 cfg.maxBytes).2 = false := hfail
    rcases iterChunks_cross env.audio.chunks 0 cfg.maxBytes (Nat.zero_le _) hfail2
      with ⟨pre, c, post, heq, hw, hle, hgt⟩
    exact ⟨pre, c, post, heq, hw, by omega, by omega⟩
  · intro hfail hmime
    have hprep : (prepare_audio_for_model env.audio cfg.maxBytes cfg.maxDurationSec).result =
        .error .uploadTooLarge := by
      simp [prepare_audio_for_model, hfail]
    constructor
    · simp only [transcribe, hmime, Bool.false_eq_true, if_false, hprep]
    · simp only [transcribe_with_comparison, hmime, Bool.false_eq_true, if_false, hprep]

/-- C7, witness: chunks `[3, 6]` against a 5-byte ceiling — 3 bytes written,
ingestion fails, and the `/transcribe` endpoint answers 413. -/
theorem C7_witness :
    (save_upload_to_tmp [3, 6] 5).bytesWritten ≤ 5 ∧
      (transcribe ⟨5, 3600, []⟩
        ⟨none, ⟨[3, 6], true, true, 1, true⟩, some "t".toList, false, none, []⟩).1 =
        .reject413 :=
  ⟨(C7_size_ceiling ⟨5, 3600, []⟩
      ⟨none, ⟨[3, 6], true, true, 1, true⟩, some "t".toList, false, none, []⟩).1,
   ((C7_size_ceiling ⟨5, 3600, []⟩
      ⟨none, ⟨[3, 6], true, true, 1, true⟩, some "t".toList, false, none, []⟩).2.2.2
      (by decide) (by decide)).1⟩

/-- C10: on both audio endpoints, an upload whose content type is missing
(`None`) or the empty string bypasses the MIME check — no 415 rejection can
occur and the request proceeds into the pipeline (the normalization call is
emitted) — regardless of the configured allowed-MIME set; conversely the check
only ever rejects a non-empty content type outside the allowed set. -/
theorem C10_missing_content_type (cfg : Config) (env : ReqEnv)
    (h : env.contentType = none ∨ env.contentType = some []) :
    mimeRejected env.contentType cfg.allowedMime = false ∧
    (transcribe cfg env).1 ≠ .reject415 ∧
    Ev.normalizeCall ∈ (transcribe cfg env).2 ∧
    (transcribe_with_comparison cfg env).1 ≠ .reject415 ∧
    Ev.normalizeCall ∈ (transcribe_with_comparison cfg env).2 ∧
    (∀ ct allowed, mimeRejected (some ct) allowed = true →
      ct ≠ [] ∧ allowed.contains ct = false) := by
  have hmime : mimeRejected env.contentType cfg.allowedMime = false := by
    rcases h with h | h <;> simp [mimeRejected, h]
  refine ⟨hmime, ?_, ?_, ?_, ?_, ?_⟩
  · simp only [transcribe, hmime, Bool.false_eq_true, if_false]
    rcases (prepare_audio_for_model env.audio cfg.maxBytes cfg.maxDurationSec).result
      with d | e
    · cases env.inferResult
      · by_cases hv : env.inferValueError <;> simp [hv]
      · simp
    · cases e <;> simp
  · simp only [transcribe, hmime, Bool.false_eq_true, if_false]
    rcases (prepare_audio_for_model env.audio cfg.maxBytes cfg.maxDurationSec).result
      with d | e
    · cases env.inferResult <;> exact normalizeCall_mem_events_full
    · cases e <;> exact normalizeCall_mem_events_short
  · simp only [transcribe_with_comparison, hmime, Bool.false_eq_true, if_false]
    rcases (prepare_audio_for_model env.audio cfg.maxBytes cfg.maxDurationSec).result
      with d | e
    · cases env.inferResult
      · by_cases hv : env.inferValueError <;> simp [hv]
      · simp
    · cases e <;> simp
  · simp only [transcribe_with_comparison, hmime, Bool.false_eq_true, if_false]
    rcases (prepare_audio_for_model env.audio cfg.maxBytes cfg.maxDurationSec).result
      with d | e
    · cases env.inferResult <;> exact normalizeCall_mem_events_full
    · cases e <;> exact normalizeCall_mem_events_short
  · intro ct allowed hrej
    simp only [mimeRejected, Bool.and_eq_true, Bool.not_eq_true'] at hrej
    exact ⟨by simpa [List.isEmpty_iff] using hrej.1, hrej.2⟩

/-- C10, witness: content type `None` against a non-trivial allowed set — the
request is not rejected with 415 and reaches normalization. -/
theorem C10_witness :
    (transcribe ⟨100, 3600, ["audio/wav".toList]⟩
        ⟨none, ⟨[5], true, true, 1, true⟩, some "t".toList, false, none, []⟩).1 ≠
        .reject415 ∧
      Ev.normalizeCall ∈ (transcribe ⟨100, 3600, ["audio/wav".toList]⟩
        ⟨none, ⟨[5], true, true, 1, true⟩, some "t".toList, false, none, []⟩).2 :=
  ⟨(C10_missing_content_type ⟨100, 3600, ["audio/wav".toList]⟩
      ⟨none, ⟨[5], true, true, 1, true⟩, some "t".toList, false, none, []⟩
      (Or.inl rfl)).2.1,
   (C10_missing_content_type ⟨100, 3600, ["audio/wav".toList]⟩
      ⟨none, ⟨[5], true, true, 1, true⟩, some "t".toList, false, none, []⟩
      (Or.inl rfl)).2.2.1⟩

end PrivAI
